import Mathlib

/-!
Verification development for the scheduling and work-unit lifecycle
subsystem of a user-level threading runtime (Argobots-style).

The definitions below are a shallow embedding of `src/sched/sched.c`
(scheduler API), of the expectation tables of `test/basic/pool_access.c`,
and of the stencil kernel of `examples/stencil/stencil_forkjoin_revive.c`.
Parts of the runtime whose implementation is not part of the analysed
sources (pool internals, ULT lifecycle) are modelled from the
specification; each such definition says so in its doc comment.

Machine integers are modelled as `Nat` (the C values involved are small
and non-negative in every analysed path); the `request` field is a
bitset as in the C code, with the same bit values. Type `ABT_bool` is
`Bool`, output parameters become components of the returned tuple, and
possibly-NULL handles are `Option`.
-/

set_option autoImplicit false

/-- Error codes of the library surface (`ABT_SUCCESS`, `ABT_ERR_*`).
Distinct constructors model the distinct C constants. -/
inductive ErrCode where
  | ABT_SUCCESS
  | ABT_ERR_MEM
  | ABT_ERR_INV_XSTREAM
  | ABT_ERR_INV_POOL
  | ABT_ERR_INV_SCHED
  | ABT_ERR_INV_POOL_ACCESS
  | ABT_ERR_INV_SCHED_PREDEF
  | ABT_ERR_INV_THREAD
  | ABT_ERR_SCHED
  deriving DecidableEq, Repr

export ErrCode (ABT_SUCCESS ABT_ERR_MEM ABT_ERR_INV_XSTREAM ABT_ERR_INV_POOL
  ABT_ERR_INV_SCHED ABT_ERR_INV_POOL_ACCESS ABT_ERR_INV_SCHED_PREDEF
  ABT_ERR_INV_THREAD ABT_ERR_SCHED)

/-- Scheduler states (`ABT_sched_state`). -/
inductive ABT_sched_state where
  | READY
  | RUNNING
  | STOPPED
  | TERMINATED
  deriving DecidableEq, Repr

/-- How a scheduler is used by an ES (`ABTI_sched_used`). -/
inductive ABTI_sched_used where
  | NOT_USED
  | MAIN
  | STACKED
  deriving DecidableEq, Repr

/-- Request bit `ABTI_SCHED_REQ_FINISH` (bit 0 of the request bitset). -/
def ABTI_SCHED_REQ_FINISH : Nat := 1

/-- Request bit `ABTI_SCHED_REQ_EXIT` (bit 1 of the request bitset). -/
def ABTI_SCHED_REQ_EXIT : Nat := 2

/-- Modelled from the spec: the pool implementation (`pool.c`) is not
among the analysed sources.  A pool carries a FIFO queue of ready work
units (represented by their ids) together with counters of blocked and
in-transit (migrating) units; §3 of the spec: "size and total-size
counters (total includes blocked and in-transit units)". -/
structure ABTI_pool where
  queue : List Nat
  num_blocked : Nat
  num_migrating : Nat
  deriving DecidableEq, Repr

/-- Modelled from the spec: `pool_get_size(pool) → n` returns the number
of ready units queued in the pool. -/
def ABT_pool_get_size (p : ABTI_pool) : Nat :=
  p.queue.length

/-- Modelled from the spec: `pool_get_total_size(pool) → n`; "total
includes blocked/migrating units". -/
def ABT_pool_get_total_size (p : ABTI_pool) : Nat :=
  p.queue.length + p.num_blocked + p.num_migrating

/-- Scheduler descriptor (`ABTI_sched`), restricted to the fields the
analysed functions read or write.  The `get_migr_pool` callback is kept
outside the record (passed explicitly to the one function that reads
it) so that the state stays first-order. -/
structure ABTI_sched where
  used : ABTI_sched_used
  state : ABT_sched_state
  request : Nat
  pools : List ABTI_pool
  deriving DecidableEq, Repr

/-- Execution-stream descriptor; the analysed scheduler code uses it
only for its `top_sched_mutex`, so an id suffices here. -/
structure ABTI_xstream where
  rank : Nat
  deriving DecidableEq, Repr

/-- The accumulation loop of `ABT_sched_get_size` / `ABT_sched_get_total_size`:
`for (p = 0; ...) pool_size += f(pools[p])`. -/
def sched_sum_pools (f : ABTI_pool → Nat) (pools : List ABTI_pool) : Nat :=
  pools.foldl (fun acc p => acc + f p) 0

/-- Function `ABT_sched_get_size` (sched.c:577): sum of `ABT_pool_get_size` over the
scheduler's pools; a NULL handle takes the `fn_fail` path, which still
stores the (zero) accumulator through the output parameter. -/
def ABT_sched_get_size : Option ABTI_sched → ErrCode × Nat
  | none => (ABT_ERR_INV_SCHED, 0)
  | some s => (ABT_SUCCESS, sched_sum_pools ABT_pool_get_size s.pools)

/-- Function `ABT_sched_get_total_size` (sched.c:612): sum of
`ABT_pool_get_total_size` over the scheduler's pools. -/
def ABT_sched_get_total_size : Option ABTI_sched → ErrCode × Nat
  | none => (ABT_ERR_INV_SCHED, 0)
  | some s => (ABT_SUCCESS, sched_sum_pools ABT_pool_get_total_size s.pools)

/-- Function `ABT_sched_finish` (sched.c:386): atomically OR the FINISH bit into the
request bitset of a valid scheduler. -/
def ABT_sched_finish : Option ABTI_sched → ErrCode × Option ABTI_sched
  | none => (ABT_ERR_INV_SCHED, none)
  | some s => (ABT_SUCCESS, some { s with request := s.request ||| ABTI_SCHED_REQ_FINISH })

/-- Function `ABT_sched_exit` (sched.c:414): atomically OR the EXIT bit into the
request bitset of a valid scheduler; nothing else is touched. -/
def ABT_sched_exit : Option ABTI_sched → ErrCode × Option ABTI_sched
  | none => (ABT_ERR_INV_SCHED, none)
  | some s => (ABT_SUCCESS, some { s with request := s.request ||| ABTI_SCHED_REQ_EXIT })

/-- Function `ABT_sched_has_to_stop` (sched.c:447).  `loc` is the thread-local
`lp_ABTI_local` pointer (NULL on an external thread).  The function
reads the total size of the scheduler's pools twice: once without the
lock and, when a FINISH request is pending and the first read was zero,
once more under the ES's `top_sched_mutex`.  Concurrent producers may
change the pools between the two reads, so the pool contents at the
locked re-check are passed as the separate snapshot `pools2`.  The
branch that context-switches back to the main ULT (no pending request,
empty pools, main ULT present) changes no scheduler field and falls
through to `fn_exit`, so it is the identity on the state modelled here.
Returns (error code, `*stop`, updated scheduler). -/
def ABT_sched_has_to_stop (loc : Option ABTI_xstream) (osched : Option ABTI_sched)
    (pools2 : List ABTI_pool) : ErrCode × Bool × Option ABTI_sched :=
  match loc with
  | none => (ABT_ERR_INV_XSTREAM, false, osched)
  | some _ =>
    match osched with
    | none => (ABT_ERR_INV_SCHED, false, none)
    | some s =>
      if s.request &&& ABTI_SCHED_REQ_EXIT ≠ 0 then
        (ABT_SUCCESS, true, some { s with state := ABT_sched_state.TERMINATED })
      else if sched_sum_pools ABT_pool_get_total_size s.pools = 0 then
        if s.request &&& ABTI_SCHED_REQ_FINISH ≠ 0 then
          if sched_sum_pools ABT_pool_get_total_size pools2 = 0 then
            (ABT_SUCCESS, true, some { s with state := ABT_sched_state.TERMINATED })
          else
            (ABT_SUCCESS, false, some s)
        else
          (ABT_SUCCESS, false, some s)
      else
        (ABT_SUCCESS, false, some s)

/-- Function `ABTI_sched_associate` (sched.c:642).  When the scheduler is already
used, `abt_errno` is set to `ABT_ERR_SCHED` but control does not jump to
`fn_fail`, so the assignment `p_sched->used = use` runs in every case
and the function returns the error code from `fn_exit`. -/
def ABTI_sched_associate (osched : Option ABTI_sched) (use : ABTI_sched_used) :
    ErrCode × Option ABTI_sched :=
  match osched with
  | none => (ABT_ERR_INV_SCHED, none)
  | some s =>
    let abt_errno := if s.used ≠ ABTI_sched_used.NOT_USED then ABT_ERR_SCHED else ABT_SUCCESS
    (abt_errno, some { s with used := use })

/-- Modelled from the spec: `ABTI_pool_accept_migration` lives in the
pool implementation, which is not among the analysed sources.  Spec
§4.4: "The candidate must pass `accept_migration(dest, source)`
(compatible producer on source side, consumer on dest side)".  The
compatibility test itself is kept abstract as the parameter `accept`;
a NULL destination pool accepts nothing. -/
def ABTI_pool_accept_migration (accept : ABTI_pool → ABTI_pool → Bool) :
    Option ABTI_pool → ABTI_pool → Bool
  | none, _ => false
  | some p, source => accept p source

/-- Function `ABTI_sched_get_migration_pool` (sched.c:660).  `get_migr_pool` is the
scheduler's optional callback (a NULL function pointer becomes `none`);
`accept` abstracts `ABTI_pool_accept_migration`'s compatibility test.
Returns (error code, `*pp_pool`). -/
def ABTI_sched_get_migration_pool (accept : ABTI_pool → ABTI_pool → Bool)
    (s : ABTI_sched) (get_migr_pool : Option (Unit → Option ABTI_pool))
    (source_pool : ABTI_pool) : ErrCode × Option ABTI_pool :=
  if s.state = ABT_sched_state.TERMINATED then
    (ABT_ERR_INV_SCHED, none)
  else
    let p_pool : Option ABTI_pool :=
      match get_migr_pool with
      | none =>
        match s.pools with
        | [] => none
        | p :: _ => some p
      | some f => f ()
    if ABTI_pool_accept_migration accept p_pool source_pool then
      (ABT_SUCCESS, p_pool)
    else
      (ABT_ERR_INV_POOL_ACCESS, none)

/-- Default pool value standing for an uninitialised slot; the copy loop
of `ABT_sched_get_pools` never reads it in the in-bounds case. -/
def poolDefault : ABTI_pool :=
  { queue := [], num_blocked := 0, num_migrating := 0 }

/-- The copy loop of `ABT_sched_get_pools`:
`for (p = idx; p < idx+max_pools; p++) pools[p-idx] = p_sched->pools[p]`,
re-indexed by `i = p - idx` over `0..max_pools-1`. -/
def copy_pools (pools : List ABTI_pool) (idx max_pools : Nat) (out : List ABTI_pool) :
    List ABTI_pool :=
  (List.range max_pools).foldl (fun acc i => acc.set i (pools.getD (idx + i) poolDefault)) out

/-- Function `ABT_sched_get_pools` (sched.c:350).  When `idx + max_pools` exceeds the
number of pools the function jumps to `fn_fail` with `ABT_ERR_SCHED`
before the copy loop, leaving the output buffer untouched. -/
def ABT_sched_get_pools (osched : Option ABTI_sched) (max_pools idx : Nat)
    (out : List ABTI_pool) : ErrCode × List ABTI_pool :=
  match osched with
  | none => (ABT_ERR_INV_SCHED, out)
  | some s =>
    if idx + max_pools > s.pools.length then
      (ABT_ERR_SCHED, out)
    else
      (ABT_SUCCESS, copy_pools s.pools idx max_pools out)

/-- Pool access policies (`ABT_pool_access`), in the order of the arrays
`accesses` / `sched_list` of `test/basic/pool_access.c`. -/
inductive ABT_pool_access where
  | PRW
  | PR_PW
  | PR_SW
  | SR_PW
  | SR_SW
  deriving DecidableEq, Repr

/-- Expected outcome of test (A) — attaching schedulers running on two
different ESes to one pool of the given access policy — as set up in
`main` of `pool_access.c` (the array `ret_add_to_another_ES`,
lines 207-240). -/
def ret_add_to_another_ES : ABT_pool_access → ErrCode
  | ABT_pool_access.PRW => ABT_ERR_INV_POOL_ACCESS
  | ABT_pool_access.PR_PW => ABT_ERR_INV_POOL_ACCESS
  | ABT_pool_access.PR_SW => ABT_ERR_INV_POOL_ACCESS
  | ABT_pool_access.SR_PW => ABT_SUCCESS
  | ABT_pool_access.SR_SW => ABT_SUCCESS

/-- Expected outcomes of the two pushes exercised by
`push_from_another_es` of `pool_access.c` (the array
`ret_push_from_another_pool`, lines 207-240): first component for the
tasklet push issued from an ES other than the pool's ES (`results[0]`),
second component for the follow-up push (`results[1]`). -/
def ret_push_from_another_pool : ABT_pool_access → ErrCode × ErrCode
  | ABT_pool_access.PRW => (ABT_ERR_INV_POOL_ACCESS, ABT_ERR_INV_POOL_ACCESS)
  | ABT_pool_access.PR_PW => (ABT_SUCCESS, ABT_ERR_INV_POOL_ACCESS)
  | ABT_pool_access.PR_SW => (ABT_SUCCESS, ABT_SUCCESS)
  | ABT_pool_access.SR_PW => (ABT_SUCCESS, ABT_ERR_INV_POOL_ACCESS)
  | ABT_pool_access.SR_SW => (ABT_SUCCESS, ABT_SUCCESS)

/-- The outcome triple (A two-ES attach, B foreign push, C foreign pop)
that the test `pool_access.c` asserts for each access policy. -/
def test_outcome_table (a : ABT_pool_access) : ErrCode × ErrCode × ErrCode :=
  (ret_add_to_another_ES a,
   (ret_push_from_another_pool a).1,
   (ret_push_from_another_pool a).2)

/-- The outcome table exactly as the specification's §8 matrix states it
(S = `ABT_SUCCESS`, E = `ABT_ERR_INV_POOL_ACCESS`); written from the
spec's words for comparison with `test_outcome_table`, which is written
from the test's source. -/
def spec_outcome_table : ABT_pool_access → ErrCode × ErrCode × ErrCode
  | ABT_pool_access.PRW =>
      (ABT_ERR_INV_POOL_ACCESS, ABT_ERR_INV_POOL_ACCESS, ABT_ERR_INV_POOL_ACCESS)
  | ABT_pool_access.PR_PW =>
      (ABT_ERR_INV_POOL_ACCESS, ABT_SUCCESS, ABT_ERR_INV_POOL_ACCESS)
  | ABT_pool_access.PR_SW =>
      (ABT_ERR_INV_POOL_ACCESS, ABT_SUCCESS, ABT_SUCCESS)
  | ABT_pool_access.SR_PW =>
      (ABT_SUCCESS, ABT_ERR_INV_POOL_ACCESS, ABT_ERR_INV_POOL_ACCESS)
  | ABT_pool_access.SR_SW =>
      (ABT_SUCCESS, ABT_SUCCESS, ABT_SUCCESS)

/-- The spec's table with the single entry the test contradicts amended:
for SR_PW the test expects the first foreign push to succeed
(`temp31[0] = success`, pool_access.c:232), not to fail. -/
def amended_outcome_table (a : ABT_pool_access) : ErrCode × ErrCode × ErrCode :=
  match a with
  | ABT_pool_access.SR_PW =>
      (ABT_SUCCESS, ABT_SUCCESS, ABT_ERR_INV_POOL_ACCESS)
  | x => spec_outcome_table x

/-- ULT states (`ABT_thread_state`). -/
inductive ABT_thread_state where
  | READY
  | RUNNING
  | BLOCKED
  | TERMINATED
  deriving DecidableEq, Repr

/-- Modelled from the spec: the ULT implementation (`thread.c`) is not
among the analysed sources.  A ULT descriptor keeps its stack (by id —
"reuses the stack" becomes "keeps the same stack id"), entry function
and argument (by id), and its lifecycle state. -/
structure ULT where
  stack_id : Nat
  entry : Nat
  arg : Nat
  state : ABT_thread_state
  deriving DecidableEq, Repr

/-- Modelled from the spec: the observable world of the ULT lifecycle —
a counter of allocated stacks (`next_stack` names the next fresh stack,
`alloc_count` counts allocations), the trace of executed (entry, arg)
pairs, and the FIFO pool of queued ready ULTs (by stack id). -/
structure RuntimeWorld where
  next_stack : Nat
  alloc_count : Nat
  trace : List (Nat × Nat)
  pool : List Nat
  deriving DecidableEq, Repr

/-- Modelled from the spec: "`ult_create(pool, entry, arg, attrs) → ult`
allocates a stack, builds a context whose entry is a trampoline invoking
`entry(arg)`, pushes the ULT into `pool`, and sets state READY." -/
def ABT_thread_create (w : RuntimeWorld) (entry arg : Nat) : RuntimeWorld × ULT :=
  ({ w with
      next_stack := w.next_stack + 1,
      alloc_count := w.alloc_count + 1,
      pool := w.pool ++ [w.next_stack] },
   { stack_id := w.next_stack, entry := entry, arg := arg, state := ABT_thread_state.READY })

/-- Modelled from the spec: "`join(ult)` blocks the caller until `ult`
reaches TERMINATED."  Within one ES scheduling is single-threaded and
cooperative, so in this sequential model the scheduler dispatches the
target during the join: the ULT leaves the pool, its `entry(arg)` call
is appended to the execution trace, and it becomes TERMINATED.  Joining
an already TERMINATED ULT returns at once. -/
def ABT_thread_join (w : RuntimeWorld) (u : ULT) : RuntimeWorld × ULT :=
  match u.state with
  | ABT_thread_state.TERMINATED => (w, u)
  | _ =>
    ({ w with
        trace := w.trace ++ [(u.entry, u.arg)],
        pool := w.pool.erase u.stack_id },
     { u with state := ABT_thread_state.TERMINATED })

/-- Modelled from the spec: "`revive(pool, entry, arg, ult)` requires the
ULT to be TERMINATED, resets state to READY with new entry/arg,
re-queues it into `pool`, and reuses its existing stack and descriptor"
— no allocation; a non-TERMINATED target gets `ABT_ERR_INV_THREAD`
(spec §9 open question (iii)). -/
def ABT_thread_revive (w : RuntimeWorld) (entry arg : Nat) (u : ULT) :
    Except ErrCode (RuntimeWorld × ULT) :=
  match u.state with
  | ABT_thread_state.TERMINATED =>
    Except.ok
      ({ w with pool := w.pool ++ [u.stack_id] },
       { u with entry := entry, arg := arg, state := ABT_thread_state.READY })
  | _ => Except.error ABT_ERR_INV_THREAD

/-- Modelled from the spec: "`free(ult)` requires TERMINATED, releases
stack and descriptor.  Freeing a non-terminated ULT is an error". -/
def ABT_thread_free (w : RuntimeWorld) (u : ULT) : Except ErrCode RuntimeWorld :=
  match u.state with
  | ABT_thread_state.TERMINATED => Except.ok w
  | _ => Except.error ABT_ERR_INV_THREAD

/-- The revive-based sequence of `stencil_forkjoin_revive.c`:
create → join → revive(same ULT, new entry/args) → join → free. -/
def run_create_join_revive (w : RuntimeWorld) (e1 a1 e2 a2 : Nat) :
    Except ErrCode RuntimeWorld :=
  let cw := ABT_thread_create w e1 a1
  let jw := ABT_thread_join cw.1 cw.2
  match ABT_thread_revive jw.1 e2 a2 jw.2 with
  | Except.error e => Except.error e
  | Except.ok rw =>
    let jw2 := ABT_thread_join rw.1 rw.2
    ABT_thread_free jw2.1 jw2.2

/-- The reference sequence: create → join → free → create → join → free. -/
def run_create_join_free_twice (w : RuntimeWorld) (e1 a1 e2 a2 : Nat) :
    Except ErrCode RuntimeWorld :=
  let cw := ABT_thread_create w e1 a1
  let jw := ABT_thread_join cw.1 cw.2
  match ABT_thread_free jw.1 jw.2 with
  | Except.error e => Except.error e
  | Except.ok w' =>
    let cw2 := ABT_thread_create w' e2 a2
    let jw2 := ABT_thread_join cw2.1 cw2.2
    ABT_thread_free jw2.1 jw2.2

/-- A grid of `double` values indexed by (x, y).  The C arrays are
indexed through `INDEX(x, y)`, injective on the grid (the header
`stencil_helper.h` defines it as the usual row-major map), so a
two-dimensional function is an equivalent view; `double` arithmetic is
modelled exactly, over `ℚ`. -/
def Grid : Type := Int → Int → ℚ

/-- Writing one cell of a grid (`values_new[INDEX(x, y)] = v`). -/
def grid_set (g : Grid) (x y : Int) (v : ℚ) : Grid :=
  fun a b => if a = x ∧ b = y then v else g a b

/-- The value the kernel stores at (x, y):
`values_old[INDEX(x,y)] * (1.0/2.0) + (values_old[INDEX(x+1,y)] +
values_old[INDEX(x-1,y)] + values_old[INDEX(x,y+1)] +
values_old[INDEX(x,y-1)]) * (1.0/8.0)` (stencil_forkjoin_revive.c:48). -/
def stencil_value (values_old : Grid) (x y : Int) : ℚ :=
  values_old x y * (1 / 2) +
    (values_old (x + 1) y + values_old (x - 1) y +
     values_old x (y + 1) + values_old x (y - 1)) * (1 / 8)

/-- The kernel's inner loop: `for (x = x0; x < x0 + n; x++)` writing row
`y` of `values_new` (re-indexed by `i = x - x0`). -/
def kernel_row (values_old : Grid) (y x0 : Int) (n : Nat) (values_new : Grid) : Grid :=
  (List.range n).foldl
    (fun g (i : Nat) =>
      grid_set g (x0 + (i : Int)) y (stencil_value values_old (x0 + (i : Int)) y))
    values_new

/-- The kernel's outer loop: `for (y = y0; y < y0 + m; y++)` running the
inner loop on each row (re-indexed by `j = y - y0`). -/
def kernel_block (values_old : Grid) (x0 y0 : Int) (n m : Nat) (values_new : Grid) : Grid :=
  (List.range m).foldl
    (fun g (j : Nat) => kernel_row values_old (y0 + (j : Int)) x0 n g) values_new

/-- The memory the `kernel` entry of `stencil_forkjoin_revive.c` can
reach through its argument: the two grids. -/
structure StencilState where
  values_old : Grid
  values_new : Grid

/-- Function `kernel` (stencil_forkjoin_revive.c:40): iterates
`y ∈ [blockY*blocksize, (blockY+1)*blocksize)` and
`x ∈ [blockX*blocksize, (blockX+1)*blocksize)`, storing
`stencil_value` into `values_new`; every store targets `values_new` and
every load reads `values_old`. -/
def kernel (blocksize blockX blockY : Nat) (st : StencilState) : StencilState :=
  { values_old := st.values_old,
    values_new :=
      kernel_block st.values_old ((blockX : Int) * blocksize) ((blockY : Int) * blocksize)
        blocksize blocksize st.values_new }

/-! ## Helper lemmas -/

theorem pool_size_le_total_size (p : ABTI_pool) :
    ABT_pool_get_size p ≤ ABT_pool_get_total_size p := by
  simp [ABT_pool_get_size, ABT_pool_get_total_size]
  omega

theorem sum_pools_acc_mono (pools : List ABTI_pool) :
    ∀ a b : Nat, a ≤ b →
      pools.foldl (fun acc p => acc + ABT_pool_get_size p) a ≤
        pools.foldl (fun acc p => acc + ABT_pool_get_total_size p) b := by
  induction pools with
  | nil => intro a b hab; simpa using hab
  | cons p ps ih =>
    intro a b hab
    exact ih _ _ (Nat.add_le_add hab (pool_size_le_total_size p))

theorem or_exit_bit_set (r : Nat) :
    (r ||| ABTI_SCHED_REQ_EXIT) &&& ABTI_SCHED_REQ_EXIT ≠ 0 := by
  have h1 : ABTI_SCHED_REQ_EXIT = 2 ^ 1 := rfl
  rw [h1, Nat.and_two_pow]
  simp [Nat.testBit_or, show Nat.testBit 2 1 = true from by decide]

/-! ## Claim theorems -/

/-- Claim C7: called from a thread that is not an ES (the thread-local
runtime pointer is NULL), `ABT_sched_has_to_stop` returns
`ABT_ERR_INV_XSTREAM` with its `stop` output false, for every scheduler
argument (the NULL-local check precedes the scheduler-handle check). -/
theorem has_to_stop_external_thread (osched : Option ABTI_sched) (pools2 : List ABTI_pool) :
    ABT_sched_has_to_stop none osched pools2 = (ABT_ERR_INV_XSTREAM, false, osched) :=
  rfl

/-- Claim C6: both scheduler sizes are sums over the scheduler's pools,
each pool's total size (counting blocked and migrating units) is at
least its size, and consequently `ABT_sched_get_total_size` reports at
least as much as `ABT_sched_get_size` on every valid scheduler. -/
theorem sched_total_size_ge_size :
    (∀ p : ABTI_pool, ABT_pool_get_size p ≤ ABT_pool_get_total_size p) ∧
    (∀ s : ABTI_sched,
      (ABT_sched_get_size (some s)).2 ≤ (ABT_sched_get_total_size (some s)).2) := by
  refine ⟨pool_size_le_total_size, fun s => ?_⟩
  simpa [ABT_sched_get_size, ABT_sched_get_total_size, sched_sum_pools] using
    sum_pools_acc_mono s.pools 0 0 (Nat.le_refl 0)

/-- Claim C2: `ABT_sched_exit` on a valid scheduler returns
`ABT_SUCCESS` and changes nothing but the request bitset, into which it
ORs the EXIT bit; after that, `ABT_sched_has_to_stop` called from an ES
reports stop = true and sets the scheduler state to TERMINATED no matter
how many work units the pools hold. -/
theorem sched_exit_then_stop (xs : ABTI_xstream) (s : ABTI_sched) (pools2 : List ABTI_pool) :
    (ABT_sched_exit (some s)).1 = ABT_SUCCESS ∧
    (ABT_sched_exit (some s)).2 =
      some { s with request := s.request ||| ABTI_SCHED_REQ_EXIT } ∧
    (∀ s', (ABT_sched_exit (some s)).2 = some s' →
      s'.request = s.request ||| ABTI_SCHED_REQ_EXIT ∧
      s'.used = s.used ∧ s'.state = s.state ∧ s'.pools = s.pools ∧
      ABT_sched_has_to_stop (some xs) (some s') pools2 =
        (ABT_SUCCESS, true, some { s' with state := ABT_sched_state.TERMINATED })) := by
  refine ⟨rfl, rfl, fun s' hs' => ?_⟩
  have hs'' : s' = { s with request := s.request ||| ABTI_SCHED_REQ_EXIT } := by
    simpa [ABT_sched_exit] using hs'.symm
  subst hs''
  refine ⟨rfl, rfl, rfl, rfl, ?_⟩
  simp [ABT_sched_has_to_stop, or_exit_bit_set s.request]

/-- Claim C8 (counterexample): applying `ABTI_sched_associate` to a
scheduler whose `used` tag is MAIN returns `ABT_ERR_SCHED`, yet the
`used` tag does not stay unchanged: the missing jump to `fn_fail` lets
the assignment run, overwriting the tag with the requested value. -/
theorem sched_associate_changes_used_tag :
    (ABTI_sched_associate
        (some { used := ABTI_sched_used.MAIN, state := ABT_sched_state.RUNNING,
                request := 0, pools := [] })
        ABTI_sched_used.STACKED).1 = ABT_ERR_SCHED ∧
    (ABTI_sched_associate
        (some { used := ABTI_sched_used.MAIN, state := ABT_sched_state.RUNNING,
                request := 0, pools := [] })
        ABTI_sched_used.STACKED).2 ≠
      some { used := ABTI_sched_used.MAIN, state := ABT_sched_state.RUNNING,
             request := 0, pools := [] } ∧
    (ABTI_sched_associate
        (some { used := ABTI_sched_used.MAIN, state := ABT_sched_state.RUNNING,
                request := 0, pools := [] })
        ABTI_sched_used.STACKED).2 =
      some { used := ABTI_sched_used.STACKED, state := ABT_sched_state.RUNNING,
             request := 0, pools := [] } := by
  decide

/-- Claim C8 (amended): on a scheduler already referenced by an ES
(`used ≠ NOT_USED`), `ABTI_sched_associate` returns `ABT_ERR_SCHED` —
so the caller can maintain the at-most-one-ES invariant — but it still
overwrites the `used` tag with the requested value. -/
theorem sched_associate_already_used (s : ABTI_sched) (use : ABTI_sched_used)
    (h : s.used ≠ ABTI_sched_used.NOT_USED) :
    ABTI_sched_associate (some s) use = (ABT_ERR_SCHED, some { s with used := use }) := by
  simp [ABTI_sched_associate, h]

/-- Claim C8 (witness for the amended theorem): a MAIN-used scheduler. -/
theorem sched_associate_already_used_witness :
    ABTI_sched_associate
        (some { used := ABTI_sched_used.MAIN, state := ABT_sched_state.READY,
                request := 0, pools := [] })
        ABTI_sched_used.STACKED =
      (ABT_ERR_SCHED,
       some { used := ABTI_sched_used.STACKED, state := ABT_sched_state.READY,
              request := 0, pools := [] }) :=
  sched_associate_already_used
    { used := ABTI_sched_used.MAIN, state := ABT_sched_state.READY,
      request := 0, pools := [] }
    ABTI_sched_used.STACKED (by decide)

/-- Claim C3 (counterexample): at access policy SR_PW the outcome table
asserted by `pool_access.c` disagrees with the spec's table: the test
expects the foreign push (test B) to succeed, the claim says it fails
with `ABT_ERR_INV_POOL_ACCESS`. -/
theorem pool_access_table_mismatch_SR_PW :
    test_outcome_table ABT_pool_access.SR_PW ≠ spec_outcome_table ABT_pool_access.SR_PW ∧
    (spec_outcome_table ABT_pool_access.SR_PW).2.1 = ABT_ERR_INV_POOL_ACCESS ∧
    (test_outcome_table ABT_pool_access.SR_PW).2.1 = ABT_SUCCESS := by
  decide

/-- Claim C3 (amended): for every access policy the outcome triple the
test asserts equals the spec's table with the single SR_PW foreign-push
entry changed from `ABT_ERR_INV_POOL_ACCESS` to `ABT_SUCCESS`. -/
theorem pool_access_table_amended (a : ABT_pool_access) :
    test_outcome_table a = amended_outcome_table a := by
  cases a <;> rfl

/-- Claim C1: on an ES, with a FINISH request pending and no EXIT
request, `ABT_sched_has_to_stop` succeeds and reports stop = true
exactly when the total size of the scheduler's pools is zero both at
the first read and at the re-check under the ES's top-scheduler mutex
(snapshot `pools2`); when it stops it sets the scheduler state to
TERMINATED, and whenever some attached pool is non-empty it reports
stop = false and leaves the scheduler unchanged. -/
theorem sched_finish_has_to_stop (xs : ABTI_xstream) (s : ABTI_sched)
    (pools2 : List ABTI_pool)
    (hfin : s.request &&& ABTI_SCHED_REQ_FINISH ≠ 0)
    (hnoexit : s.request &&& ABTI_SCHED_REQ_EXIT = 0) :
    (ABT_sched_has_to_stop (some xs) (some s) pools2).1 = ABT_SUCCESS ∧
    ((ABT_sched_has_to_stop (some xs) (some s) pools2).2.1 = true ↔
      (ABT_sched_get_total_size (some s)).2 = 0 ∧
        sched_sum_pools ABT_pool_get_total_size pools2 = 0) ∧
    ((ABT_sched_has_to_stop (some xs) (some s) pools2).2.1 = true →
      (ABT_sched_has_to_stop (some xs) (some s) pools2).2.2 =
        some { s with state := ABT_sched_state.TERMINATED }) ∧
    ((ABT_sched_has_to_stop (some xs) (some s) pools2).2.1 = false →
      (ABT_sched_has_to_stop (some xs) (some s) pools2).2.2 = some s) := by
  simp only [ABT_sched_has_to_stop, ABT_sched_get_total_size, hnoexit, hfin, ne_eq,
    not_true_eq_false, not_false_eq_true, if_true, if_false, ite_not]
  split_ifs with h1 h2 <;> simp_all

/-- Claim C1 (witness): a FINISH-requested scheduler with one unit in
its pool does not stop and is left unchanged. -/
theorem sched_finish_has_to_stop_witness :
    (ABT_sched_has_to_stop
        (some { rank := 0 })
        (some { used := ABTI_sched_used.MAIN, state := ABT_sched_state.RUNNING,
                request := ABTI_SCHED_REQ_FINISH,
                pools := [{ queue := [7], num_blocked := 0, num_migrating := 0 }] })
        [{ queue := [7], num_blocked := 0, num_migrating := 0 }]).2.1 = false := by
  have h := sched_finish_has_to_stop { rank := 0 }
    { used := ABTI_sched_used.MAIN, state := ABT_sched_state.RUNNING,
      request := ABTI_SCHED_REQ_FINISH,
      pools := [{ queue := [7], num_blocked := 0, num_migrating := 0 }] }
    [{ queue := [7], num_blocked := 0, num_migrating := 0 }]
    (by decide) (by decide)
  revert h
  decide

/-- Claim C5: on a non-TERMINATED scheduler with no `get_migr_pool`
callback, `ABTI_sched_get_migration_pool` picks the scheduler's first
pool as the candidate (none when the scheduler has no pools); the
candidate is returned exactly when `accept_migration(candidate, source)`
holds, and otherwise the call yields `ABT_ERR_INV_POOL_ACCESS` and no
pool. -/
theorem sched_get_migration_pool_first (accept : ABTI_pool → ABTI_pool → Bool)
    (s : ABTI_sched) (source_pool : ABTI_pool)
    (hterm : s.state ≠ ABT_sched_state.TERMINATED) :
    (s.pools = [] →
      ABTI_sched_get_migration_pool accept s none source_pool =
        (ABT_ERR_INV_POOL_ACCESS, none)) ∧
    (∀ p rest, s.pools = p :: rest →
      (accept p source_pool = true →
        ABTI_sched_get_migration_pool accept s none source_pool = (ABT_SUCCESS, some p)) ∧
      (accept p source_pool = false →
        ABTI_sched_get_migration_pool accept s none source_pool =
          (ABT_ERR_INV_POOL_ACCESS, none))) := by
  refine ⟨fun hnil => ?_, fun p rest hcons => ⟨fun hacc => ?_, fun hacc => ?_⟩⟩
  · simp [ABTI_sched_get_migration_pool, ABTI_pool_accept_migration, hterm, hnil]
  · simp [ABTI_sched_get_migration_pool, ABTI_pool_accept_migration, hterm, hcons, hacc]
  · simp [ABTI_sched_get_migration_pool, ABTI_pool_accept_migration, hterm, hcons, hacc]

/-- Claim C5 (witness): a ready scheduler with a single pool and an
always-accepting compatibility test hands out its first pool. -/
theorem sched_get_migration_pool_first_witness :
    ABTI_sched_get_migration_pool (fun _ _ => true)
        { used := ABTI_sched_used.MAIN, state := ABT_sched_state.RUNNING, request := 0,
          pools := [{ queue := [], num_blocked := 0, num_migrating := 0 }] }
        none { queue := [3], num_blocked := 0, num_migrating := 0 } =
      (ABT_SUCCESS, some { queue := [], num_blocked := 0, num_migrating := 0 }) :=
  ((sched_get_migration_pool_first (fun _ _ => true)
      { used := ABTI_sched_used.MAIN, state := ABT_sched_state.RUNNING, request := 0,
        pools := [{ queue := [], num_blocked := 0, num_migrating := 0 }] }
      { queue := [3], num_blocked := 0, num_migrating := 0 }
      (by decide)).2
    { queue := [], num_blocked := 0, num_migrating := 0 } [] rfl).1 rfl

theorem copy_pools_succ (pools : List ABTI_pool) (idx n : Nat) (out : List ABTI_pool) :
    copy_pools pools idx (n + 1) out =
      (copy_pools pools idx n out).set n (pools.getD (idx + n) poolDefault) := by
  simp [copy_pools, List.range_succ]

theorem copy_pools_length (pools : List ABTI_pool) (idx n : Nat) (out : List ABTI_pool) :
    (copy_pools pools idx n out).length = out.length := by
  induction n with
  | zero => rfl
  | succ n ih => rw [copy_pools_succ, List.length_set, ih]

theorem copy_pools_getElem_lt (pools : List ABTI_pool) (idx n : Nat) (out : List ABTI_pool)
    (hin : idx + n ≤ pools.length) (hbuf : n ≤ out.length) :
    ∀ i < n, (copy_pools pools idx n out)[i]? = pools[idx + i]? := by
  induction n with
  | zero => intro i hi; omega
  | succ n ih =>
    intro i hi
    rw [copy_pools_succ]
    rcases Nat.lt_succ_iff_lt_or_eq.mp hi with hlt | heq
    · rw [List.getElem?_set_ne (by omega), ih (by omega) (by omega) i hlt]
    · subst heq
      have hlen : i < (copy_pools pools idx i out).length := by
        rw [copy_pools_length]; omega
      have hp : idx + i < pools.length := by omega
      rw [List.getElem?_set_self hlen]
      simp [List.getD_eq_getElem?_getD, List.getElem?_eq_getElem hp]

theorem copy_pools_getElem_ge (pools : List ABTI_pool) (idx n : Nat) (out : List ABTI_pool) :
    ∀ i, n ≤ i → (copy_pools pools idx n out)[i]? = out[i]? := by
  induction n with
  | zero => intro i _; rfl
  | succ n ih =>
    intro i hi
    rw [copy_pools_succ, List.getElem?_set_ne (by omega), ih i (by omega)]

/-- Claim C9: `ABT_sched_get_pools` on a valid scheduler with `n` pools
returns the generic scheduler error `ABT_ERR_SCHED` — a code distinct
from `ABT_ERR_INV_SCHED` — and leaves the output buffer untouched
whenever `idx + max_pools > n`; otherwise it returns `ABT_SUCCESS` and
writes the scheduler's pools at indices `idx .. idx + max_pools - 1`,
in order, into `out[0 .. max_pools-1]`, leaving the rest of the buffer
as it was.  (`idx` and `max_pools` are modelled as naturals: negative
arguments make the C copy loop read out of bounds, which has no defined
behaviour to verify.) -/
theorem sched_get_pools_spec (s : ABTI_sched) (max_pools idx : Nat) (out : List ABTI_pool)
    (hbuf : max_pools ≤ out.length) :
    (idx + max_pools > s.pools.length →
      ABT_sched_get_pools (some s) max_pools idx out = (ABT_ERR_SCHED, out)) ∧
    (idx + max_pools ≤ s.pools.length →
      (ABT_sched_get_pools (some s) max_pools idx out).1 = ABT_SUCCESS ∧
      (∀ i < max_pools,
        (ABT_sched_get_pools (some s) max_pools idx out).2[i]? = s.pools[idx + i]?) ∧
      (∀ i, max_pools ≤ i →
        (ABT_sched_get_pools (some s) max_pools idx out).2[i]? = out[i]?)) ∧
    ABT_ERR_SCHED ≠ ABT_ERR_INV_SCHED := by
  refine ⟨fun hgt => ?_, fun hle => ?_, by decide⟩
  · simp [ABT_sched_get_pools, hgt]
  · have hnot : ¬ idx + max_pools > s.pools.length := by omega
    refine ⟨by simp [ABT_sched_get_pools, hnot], fun i hi => ?_, fun i hi => ?_⟩
    · simp only [ABT_sched_get_pools, hnot, if_false]
      exact copy_pools_getElem_lt s.pools idx max_pools out hle hbuf i hi
    · simp only [ABT_sched_get_pools, hnot, if_false]
      exact copy_pools_getElem_ge s.pools idx max_pools out i hi

/-- Claim C9 (witness): fetching one pool at index 1 of a two-pool
scheduler succeeds and copies that pool into slot 0 of the buffer. -/
theorem sched_get_pools_spec_witness :
    (ABT_sched_get_pools
        (some { used := ABTI_sched_used.MAIN, state := ABT_sched_state.RUNNING, request := 0,
                pools := [{ queue := [1], num_blocked := 0, num_migrating := 0 },
                          { queue := [2], num_blocked := 0, num_migrating := 0 }] })
        1 1 [poolDefault]).1 = ABT_SUCCESS ∧
    (ABT_sched_get_pools
        (some { used := ABTI_sched_used.MAIN, state := ABT_sched_state.RUNNING, request := 0,
                pools := [{ queue := [1], num_blocked := 0, num_migrating := 0 },
                          { queue := [2], num_blocked := 0, num_migrating := 0 }] })
        1 1 [poolDefault]).2[0]? =
      some { queue := [2], num_blocked := 0, num_migrating := 0 } := by
  have h := (sched_get_pools_spec
    { used := ABTI_sched_used.MAIN, state := ABT_sched_state.RUNNING, request := 0,
      pools := [{ queue := [1], num_blocked := 0, num_migrating := 0 },
                { queue := [2], num_blocked := 0, num_migrating := 0 }] }
    1 1 [poolDefault] (by decide)).2.1 (by decide)
  exact ⟨h.1, by rw [h.2.1 0 (by decide)]; rfl⟩

/-- Claim C4: from any world whose queued ULTs are older than the next
fresh stack, create → join → revive(same ULT, new entry/args) → join →
free and create → join → free → create → join → free both succeed with
the same observable effect — the same execution trace extension
`[(e1, a1), (e2, a2)]` and the same final pool — while the revive-based
sequence performs one stack allocation against two: the revive step
allocates nothing.  Moreover revive demands a TERMINATED ULT
(`ABT_ERR_INV_THREAD` otherwise) and resets it to READY in the
destination pool with the new entry/args, reusing its stack and
descriptor. -/
theorem thread_revive_equiv (w : RuntimeWorld) (e1 a1 e2 a2 : Nat)
    (hfresh : ∀ i ∈ w.pool, i < w.next_stack) :
    run_create_join_revive w e1 a1 e2 a2 =
      Except.ok { next_stack := w.next_stack + 1, alloc_count := w.alloc_count + 1,
                  trace := w.trace ++ [(e1, a1), (e2, a2)], pool := w.pool } ∧
    run_create_join_free_twice w e1 a1 e2 a2 =
      Except.ok { next_stack := w.next_stack + 2, alloc_count := w.alloc_count + 2,
                  trace := w.trace ++ [(e1, a1), (e2, a2)], pool := w.pool } ∧
    (∀ (w' : RuntimeWorld) (e a : Nat) (u : ULT),
      (u.state = ABT_thread_state.TERMINATED →
        ABT_thread_revive w' e a u =
          Except.ok
            ({ w' with pool := w'.pool ++ [u.stack_id] },
             { stack_id := u.stack_id, entry := e, arg := a,
               state := ABT_thread_state.READY })) ∧
      (u.state ≠ ABT_thread_state.TERMINATED →
        ABT_thread_revive w' e a u = Except.error ABT_ERR_INV_THREAD)) := by
  have hnotin : w.next_stack ∉ w.pool := fun h => by have := hfresh _ h; omega
  have hnotin2 : w.next_stack + 1 ∉ w.pool := fun h => by have := hfresh _ h; omega
  have he1 : (w.pool ++ [w.next_stack]).erase w.next_stack = w.pool := by
    rw [List.erase_append_right _ hnotin]; simp
  have he2 : (w.pool ++ [w.next_stack + 1]).erase (w.next_stack + 1) = w.pool := by
    rw [List.erase_append_right _ hnotin2]; simp
  refine ⟨?_, ?_, ?_⟩
  · simp only [run_create_join_revive, ABT_thread_create, ABT_thread_join,
      ABT_thread_revive, ABT_thread_free]
    simp [he1, List.append_assoc]
  · simp only [run_create_join_free_twice, ABT_thread_create, ABT_thread_join,
      ABT_thread_revive, ABT_thread_free]
    simp [he1, he2, List.append_assoc]
  · intro w' e a u
    constructor
    · intro h
      unfold ABT_thread_revive
      rw [h]
    · intro h
      unfold ABT_thread_revive
      cases hu : u.state
      case TERMINATED => exact absurd hu h
      all_goals rfl

/-- Claim C4 (witness): from the empty world, both sequences run the
two kernels in order; the revive-based one allocates a single stack. -/
theorem thread_revive_equiv_witness :
    run_create_join_revive { next_stack := 0, alloc_count := 0, trace := [], pool := [] }
        1 2 3 4 =
      Except.ok { next_stack := 1, alloc_count := 1, trace := [(1, 2), (3, 4)], pool := [] } ∧
    run_create_join_free_twice { next_stack := 0, alloc_count := 0, trace := [], pool := [] }
        1 2 3 4 =
      Except.ok { next_stack := 2, alloc_count := 2, trace := [(1, 2), (3, 4)], pool := [] } := by
  have h := thread_revive_equiv { next_stack := 0, alloc_count := 0, trace := [], pool := [] }
    1 2 3 4 (by simp)
  exact ⟨h.1, h.2.1⟩

theorem kernel_row_succ (values_old : Grid) (y x0 : Int) (n : Nat) (g : Grid) :
    kernel_row values_old y x0 (n + 1) g =
      grid_set (kernel_row values_old y x0 n g) (x0 + n) y
        (stencil_value values_old (x0 + n) y) := by
  simp [kernel_row, List.range_succ]

theorem kernel_row_apply (values_old : Grid) (y x0 : Int) (n : Nat) (g : Grid) (a b : Int) :
    kernel_row values_old y x0 n g a b =
      if b = y ∧ x0 ≤ a ∧ a < x0 + n then stencil_value values_old a b else g a b := by
  induction n with
  | zero =>
    have hno : ¬(b = y ∧ x0 ≤ a ∧ a < x0 + ((0 : Nat) : Int)) := by push_cast; omega
    simp only [kernel_row, List.range_zero, List.foldl_nil]
    rw [if_neg hno]
  | succ n ih =>
    rw [kernel_row_succ]
    simp only [grid_set, ih]
    by_cases h1 : a = x0 + (n : Int) ∧ b = y
    · obtain ⟨ha, hb⟩ := h1
      have hc : b = y ∧ x0 ≤ a ∧ a < x0 + ((n + 1 : Nat) : Int) := by
        refine ⟨hb, by omega, by push_cast; omega⟩
      rw [if_pos ⟨ha, hb⟩, if_pos hc, ha, hb]
    · rw [if_neg h1]
      by_cases hc1 : b = y ∧ x0 ≤ a ∧ a < x0 + (n : Int)
      · have hc2 : b = y ∧ x0 ≤ a ∧ a < x0 + ((n + 1 : Nat) : Int) := by
          obtain ⟨hb, hl, hr⟩ := hc1
          refine ⟨hb, hl, by push_cast; omega⟩
        rw [if_pos hc1, if_pos hc2]
      · by_cases hc2 : b = y ∧ x0 ≤ a ∧ a < x0 + ((n + 1 : Nat) : Int)
        · exfalso
          obtain ⟨hb, hl, hr⟩ := hc2
          exact h1 ⟨by push_cast at hr hc1 ⊢; omega, hb⟩
        · rw [if_neg hc1, if_neg hc2]

theorem kernel_block_succ (values_old : Grid) (x0 y0 : Int) (n m : Nat) (values_new : Grid) :
    kernel_block values_old x0 y0 n (m + 1) values_new =
      kernel_row values_old (y0 + m) x0 n (kernel_block values_old x0 y0 n m values_new) := by
  simp [kernel_block, List.range_succ]

theorem kernel_block_apply (values_old : Grid) (x0 y0 : Int) (n m : Nat)
    (values_new : Grid) (a b : Int) :
    kernel_block values_old x0 y0 n m values_new a b =
      if y0 ≤ b ∧ b < y0 + m ∧ x0 ≤ a ∧ a < x0 + n then
        stencil_value values_old a b
      else values_new a b := by
  induction m with
  | zero =>
    have hno : ¬(y0 ≤ b ∧ b < y0 + ((0 : Nat) : Int) ∧ x0 ≤ a ∧ a < x0 + n) := by
      push_cast; omega
    simp only [kernel_block, List.range_zero, List.foldl_nil]
    rw [if_neg hno]
  | succ m ih =>
    rw [kernel_block_succ, kernel_row_apply]
    simp only [ih]
    by_cases h1 : b = y0 + (m : Int) ∧ x0 ≤ a ∧ a < x0 + (n : Int)
    · have hc : y0 ≤ b ∧ b < y0 + ((m + 1 : Nat) : Int) ∧ x0 ≤ a ∧ a < x0 + (n : Int) := by
        obtain ⟨hb, hl, hr⟩ := h1
        refine ⟨by omega, by push_cast; omega, hl, hr⟩
      rw [if_pos h1, if_pos hc]
    · rw [if_neg h1]
      by_cases hc1 : y0 ≤ b ∧ b < y0 + (m : Int) ∧ x0 ≤ a ∧ a < x0 + (n : Int)
      · have hc2 : y0 ≤ b ∧ b < y0 + ((m + 1 : Nat) : Int) ∧ x0 ≤ a ∧ a < x0 + (n : Int) := by
          obtain ⟨hb1, hb2, hl, hr⟩ := hc1
          refine ⟨hb1, by push_cast; omega, hl, hr⟩
        rw [if_pos hc1, if_pos hc2]
      · by_cases hc2 : y0 ≤ b ∧ b < y0 + ((m + 1 : Nat) : Int) ∧ x0 ≤ a ∧ a < x0 + (n : Int)
        · exfalso
          obtain ⟨hb1, hb2, hl, hr⟩ := hc2
          exact h1 ⟨by push_cast at hb2 hc1 ⊢; omega, hl, hr⟩
        · rw [if_neg hc1, if_neg hc2]

/-- Claim C10: for every block (blockX, blockY), the stencil kernel
leaves `values_old` untouched and writes exactly the entries of
`values_new` with coordinates in
[blockX·blocksize, (blockX+1)·blocksize) × [blockY·blocksize, (blockY+1)·blocksize),
each written value being `values_old` at that point times 1/2 plus the
sum of its four horizontal and vertical neighbours times 1/8; every
entry outside the block keeps its previous `values_new` value. -/
theorem kernel_writes_only_block (blocksize blockX blockY : Nat) (st : StencilState)
    (x y : Int) :
    (kernel blocksize blockX blockY st).values_old = st.values_old ∧
    (kernel blocksize blockX blockY st).values_new x y =
      (if (blockX : Int) * blocksize ≤ x ∧ x < ((blockX : Int) + 1) * blocksize ∧
          (blockY : Int) * blocksize ≤ y ∧ y < ((blockY : Int) + 1) * blocksize then
        st.values_old x y * (1 / 2) +
          (st.values_old (x + 1) y + st.values_old (x - 1) y +
           st.values_old x (y + 1) + st.values_old x (y - 1)) * (1 / 8)
      else st.values_new x y) := by
  refine ⟨rfl, ?_⟩
  have hx : (((blockX : Int)) + 1) * (blocksize : Int) =
      (blockX : Int) * (blocksize : Int) + (blocksize : Int) := by ring
  have hy : (((blockY : Int)) + 1) * (blocksize : Int) =
      (blockY : Int) * (blocksize : Int) + (blocksize : Int) := by ring
  simp only [kernel]
  rw [kernel_block_apply, hx, hy]
  have hiff :
      ((blockY : Int) * blocksize ≤ y ∧ y < (blockY : Int) * blocksize + blocksize ∧
        (blockX : Int) * blocksize ≤ x ∧ x < (blockX : Int) * blocksize + blocksize) ↔
      ((blockX : Int) * blocksize ≤ x ∧ x < (blockX : Int) * blocksize + blocksize ∧
        (blockY : Int) * blocksize ≤ y ∧ y < (blockY : Int) * blocksize + blocksize) := by
    tauto
  rw [if_congr hiff rfl rfl]
  simp [stencil_value]
